import Mathlib

/-!
Verification of the client-geolocation batch job (`clients.py`).

The program is a single sequential batch: fetch clients lacking geolocation
rows, build a postal address for each, query a geocoding service, and insert
a geolocation row when the geocode succeeds and no row exists yet.

The embedding below mirrors the source functions:
  * `get_clients_without_geolocation`  — the SQL candidate query,
  * `build_address_string`             — the address builder,
  * `get_geolocation`                  — the geocoding client (HTTP effects
                                         abstracted into an oracle),
  * `save_geolocation`                 — the writer (database errors
                                         abstracted into an injection flag),
  * `processClient` / `processLoop` / `process_clients` — the orchestrator.

Database values follow Python semantics: a field can hold null (`None`), a
string, or an integer, and conditionals test Python truthiness (null, the
empty string and the integer 0 are falsy).
-/

/-- A Python value as stored in the optional fields of a client record:
null, a string, or an integer. -/
inductive PyVal where
  | none
  | str (s : String)
  | int (n : Int)
deriving DecidableEq, Repr

/-- Python truthiness of a `PyVal`: `None`, `""` and `0` are falsy. -/
def truthy : PyVal → Bool
  | .none => false
  | .str s => s ≠ ""
  | .int n => n ≠ 0

/-- Python `str()` of a `PyVal`. -/
def pyStr : PyVal → String
  | .none => "None"
  | .str s => s
  | .int n => toString n

/-- A row of the `clients` relation (the columns the query selects). -/
structure ClientRow where
  id : Int
  client_name : PyVal
  address : PyVal
  pincode : PyVal
  state : PyVal
  city : PyVal
deriving DecidableEq, Repr

/-- A row of the `geolocation` relation. Coordinates are carried opaquely
(the program never computes with them), modelled as integers. -/
structure GeoRow where
  id : Int
  latitude : Int
  longitude : Int
  type : String
deriving DecidableEq, Repr

/-- The database state visible to the program. -/
structure DB where
  clients : List ClientRow
  geolocation : List GeoRow
deriving DecidableEq, Repr

/-- Source function `get_clients_without_geolocation`: the SQL query
```
WITH ct AS (SELECT * FROM geolocation g WHERE type = client),
main AS (SELECT c.* FROM ct LEFT JOIN public.clients c ON c.id = ct.id)
SELECT ... FROM clients c
WHERE c.client_name IS NOT NULL
AND c.id NOT IN (SELECT id FROM main WHERE id IS NOT NULL)
```
`ct` is the geolocation rows typed `client`; the non-null ids of `main`
are the ids of clients joined against `ct`; the outer query keeps clients
with a non-null name whose id is not among those. -/
def get_clients_without_geolocation (db : DB) : List ClientRow :=
  let ct := db.geolocation.filter (fun g => g.type == "client")
  let mainIds := ct.flatMap (fun g =>
    (db.clients.filter (fun c => c.id == g.id)).map (fun c => c.id))
  db.clients.filter (fun c =>
    !(c.client_name == PyVal.none) && !(mainIds.contains c.id))

/-- The Candidate Source as the spec words it: clients whose name is
non-null and whose id does not appear among the ids of geolocation rows
with type `client`. -/
def clientsWithoutGeolocationSpec (db : DB) : List ClientRow :=
  db.clients.filter (fun c =>
    !(c.client_name == PyVal.none) &&
    !(db.geolocation.any (fun g => g.type == "client" && g.id == c.id)))

/-- Source function `build_address_string`: append each truthy field of
{address, city, state, pincode-as-str} in order, then the literal `India`,
joined by `", "`. -/
def build_address_string (c : ClientRow) : String :=
  let address_parts :=
    (if truthy c.address then [pyStr c.address] else []) ++
    (if truthy c.city then [pyStr c.city] else []) ++
    (if truthy c.state then [pyStr c.state] else []) ++
    (if truthy c.pincode then [pyStr c.pincode] else [])
  String.intercalate ", " (address_parts ++ ["India"])

/-- Source function `save_geolocation`: check whether a geolocation row with this id and
type `client` exists; if so return `false` (skip), else insert
`(id, latitude, longitude, type client)`, commit, and return `true`.
`err` injects a database error anywhere in the `try` block: the code then
rolls the pending transaction back (state unchanged) and returns `false`. -/
def save_geolocation (err : Bool) (geo : List GeoRow) (client_id : Int)
    (latitude longitude : Int) : List GeoRow × Bool :=
  if err then (geo, false)
  else if geo.any (fun g => g.id == client_id && g.type == "client") then
    (geo, false)
  else (geo ++ [⟨client_id, latitude, longitude, "client"⟩], true)

/-- One entry of the `results` array of the provider, with the fields the
code reads: `geometry.location.{lat,lng}`, `formatted_address`, and an
optional `place_id`. -/
structure GeoApiResult where
  lat : Int
  lng : Int
  formatted_address : String
  place_id : Option String
deriving DecidableEq, Repr

/-- The JSON body sent by the provider: top-level `status` (absent key modelled as
`Option.none`, read with a bracket access that raises `KeyError` when absent),
`results`, and an optional `error_message`. -/
structure GeoBody where
  status : Option String
  results : List GeoApiResult
  error_message : Option String
deriving DecidableEq, Repr

/-- What the HTTP layer produces for a request: a transport failure
(`requests.exceptions.RequestException`), some other exception (e.g. a
JSON parse failure), or a decoded body. -/
inductive ApiResponse where
  | transportError (message : String)
  | otherError (message : String)
  | body (b : GeoBody)
deriving DecidableEq, Repr

/-- The dict `get_geolocation` returns, as a tagged value: the success
dict `{latitude, longitude, formatted_address, place_id}` or the error
dict `{error, message}`. -/
inductive GeoResult where
  | success (latitude longitude : Int) (formatted_address place_id : String)
  | failure (error message : String)
deriving DecidableEq, Repr

/-- Source function `get_geolocation`: issue the HTTP request (the network is the oracle
`api`). A `RequestException` gives `API_REQUEST_FAILED`; any other
exception — including the `KeyError` from the bracket access on status when the body
has no status key — gives `UNEXPECTED_ERROR`. With a body present:
a body whose status equals `OK` with a nonempty result list takes the first result (with `place_id`
defaulting to the empty string); otherwise the error dict takes the
status string (a `get` with default `UNKNOWN`, the key here always
present) and the provider error message (default `No results found`). -/
def get_geolocation (api : String → ApiResponse) (address : String) :
    GeoResult :=
  match api address with
  | .transportError m => .failure "API_REQUEST_FAILED" m
  | .otherError m => .failure "UNEXPECTED_ERROR" m
  | .body b =>
    match b.status with
    | Option.none => .failure "UNEXPECTED_ERROR" "KeyError: status"
    | Option.some st =>
      if st = "OK" then
        match b.results with
        | r :: _ =>
          .success r.lat r.lng r.formatted_address (r.place_id.getD "")
        | [] => .failure st (b.error_message.getD "No results found")
      else .failure st (b.error_message.getD "No results found")

/-- One per-candidate outcome record appended to `results`. -/
inductive Outcome where
  | success (client_id : Int) (client_name : PyVal)
      (latitude longitude : Int) (formatted_address : String)
  | skipped (client_id : Int) (client_name : PyVal) (reason : String)
  | failed (client_id : Int) (client_name : PyVal) (error message : String)
deriving DecidableEq, Repr

/-- The `status` field of an outcome record. -/
def Outcome.status : Outcome → String
  | .success .. => "success"
  | .skipped .. => "skipped"
  | .failed .. => "failed"

/-- The `client_id` field of an outcome record. -/
def Outcome.client_id : Outcome → Int
  | .success i .. => i
  | .skipped i .. => i
  | .failed i .. => i

/-- The body of the per-client loop in `process_clients`: build the
address, geocode it, and on geocoding success call `save_geolocation`
(`errs` says whether a database error strikes while saving this client);
`saved = true` records a `success` outcome, `saved = false` a `skipped`
one, and a geocoding failure records a `failed` outcome without touching
the writer. -/
def processClient (api : String → ApiResponse) (errs : Int → Bool)
    (geo : List GeoRow) (c : ClientRow) : List GeoRow × Outcome :=
  let address := build_address_string c
  match get_geolocation api address with
  | .success la lo fa _pi =>
    let r := save_geolocation (errs c.id) geo c.id la lo
    if r.2 then (r.1, .success c.id c.client_name la lo fa)
    else (r.1, .skipped c.id c.client_name "Already exists in database")
  | .failure e m => (geo, .failed c.id c.client_name e m)

/-- The sequential loop over the selected candidates, threading the
geolocation table and accumulating the ordered outcome list. -/
def processLoop (api : String → ApiResponse) (errs : Int → Bool)
    (geo : List GeoRow) : List ClientRow → List GeoRow × List Outcome
  | [] => (geo, [])
  | c :: cs =>
    let p := processClient api errs geo c
    let r := processLoop api errs p.1 cs
    (r.1, p.2 :: r.2)

/-- How many outcomes in `os` carry the status `s` (the summary counters
are incremented exactly when an outcome of that status is appended). -/
def countStatus (os : List Outcome) (s : String) : Nat :=
  (os.filter (fun o => o.status == s)).length

/-- Truthiness of the two configuration values `process_clients` checks:
the host entry of the database config and the API key. -/
structure Config where
  pg_host_set : Bool
  google_api_key_set : Bool
deriving DecidableEq, Repr

/-- The limit application `clients = all_clients[:limit] if limit else all_clients`: a limit of
`None` or `0` is falsy and leaves the list whole; a nonzero limit applies
a Python slice (a negative bound drops that many elements from the end). -/
def applyLimit (limit : Option Int) (l : List ClientRow) : List ClientRow :=
  match limit with
  | Option.none => l
  | Option.some n =>
    if n = 0 then l
    else if 0 < n then l.take n.toNat
    else l.take (l.length - (-n).toNat)

/-- Source function `process_clients`: abort returning `None` when the configuration check
fails or the connection attempt raises (`connOk = false`); otherwise fetch
the candidates, apply the limit, return `None` when the list is empty, and
otherwise run the loop, returning the updated store and `Some` outcome
list. -/
def process_clients (cfg : Config) (connOk : Bool)
    (api : String → ApiResponse) (errs : Int → Bool)
    (limit : Option Int) (db : DB) : DB × Option (List Outcome) :=
  if !(cfg.pg_host_set && cfg.google_api_key_set) then (db, Option.none)
  else if !connOk then (db, Option.none)
  else
    let clients := applyLimit limit (get_clients_without_geolocation db)
    if clients.isEmpty then (db, Option.none)
    else
      let r := processLoop api errs db.geolocation clients
      ({ db with geolocation := r.1 }, Option.some r.2)

example : get_clients_without_geolocation
    ⟨[⟨1, .str "A", .none, .none, .none, .none⟩], []⟩
  = [⟨1, .str "A", .none, .none, .none, .none⟩] := by decide

example : get_clients_without_geolocation
    ⟨[⟨1, .str "A", .none, .none, .none, .none⟩], [⟨1, 5, 6, "client"⟩]⟩
  = [] := by decide

example : build_address_string ⟨1, .str "A", .str "12 Rd", .int 400001,
    .str "MH", .str "Mumbai"⟩ = "12 Rd, Mumbai, MH, 400001, India" := by decide

example : save_geolocation false [] 1 5 6 = ([⟨1, 5, 6, "client"⟩], true) := by
  decide

/-- Configuration with both checked values present. -/
def cfgOK : Config := ⟨true, true⟩

/-- Test client A (id 1), address only. -/
def clientA : ClientRow := ⟨1, .str "A", .str "A St", .none, .none, .none⟩

/-- Test client B (id 2), address only. -/
def clientB : ClientRow := ⟨2, .str "B", .str "B St", .none, .none, .none⟩

/-- Test client C (id 3), address only. -/
def clientC : ClientRow := ⟨3, .str "C", .str "C St", .none, .none, .none⟩

/-- A provider body with status `OK` and exactly one result. -/
def okBody (la lo : Int) (fa : String) : ApiResponse :=
  .body ⟨Option.some "OK", [⟨la, lo, fa, Option.none⟩], Option.none⟩

/-- A provider body with status `ZERO_RESULTS` and no results. -/
def zeroResultsBody : ApiResponse :=
  .body ⟨Option.some "ZERO_RESULTS", [], Option.none⟩

/-- A fault-free database: no save ever raises. -/
def noErrs : Int → Bool := fun _ => false

/-- A geocoding oracle: the addresses of clients A and B resolve, every
other address yields `ZERO_RESULTS`. -/
def apiABC : String → ApiResponse := fun a =>
  if a = "A St, India" then okBody 10 20 "A Formatted"
  else if a = "B St, India" then okBody 30 40 "B Formatted"
  else zeroResultsBody

example : build_address_string clientA = "A St, India" := by decide

example : process_clients cfgOK true apiABC noErrs Option.none
    ⟨[clientA], []⟩
  = (⟨[clientA], [⟨1, 10, 20, "client"⟩]⟩,
     Option.some [.success 1 (.str "A") 10 20 "A Formatted"]) := by decide

example : process_clients cfgOK true apiABC noErrs Option.none
    ⟨[clientA], [⟨1, 10, 20, "client"⟩]⟩
  = (⟨[clientA], [⟨1, 10, 20, "client"⟩]⟩, Option.none) := by decide

example : processLoop apiABC noErrs [⟨2, 30, 40, "client"⟩]
    [clientA, clientB, clientC]
  = ([⟨2, 30, 40, "client"⟩, ⟨1, 10, 20, "client"⟩],
     [.success 1 (.str "A") 10 20 "A Formatted",
      .skipped 2 (.str "B") "Already exists in database",
      .failed 3 (.str "C") "ZERO_RESULTS" "No results found"]) := by decide

example : process_clients cfgOK true apiABC (fun _ => true) Option.none
    ⟨[clientA], []⟩
  = (⟨[clientA], []⟩,
     Option.some [.skipped 1 (.str "A") "Already exists in database"]) := by
  decide

/-- The join-based candidate query agrees with its direct description:
keep exactly the clients with non-null name and no geolocation row typed
`client`. -/
lemma candidates_eq (db : DB) :
    get_clients_without_geolocation db = clientsWithoutGeolocationSpec db := by
  unfold get_clients_without_geolocation clientsWithoutGeolocationSpec
  apply List.filter_congr
  intro c hc
  have h : (((db.geolocation.filter (fun g => g.type == "client")).flatMap
      (fun g => (db.clients.filter (fun x => x.id == g.id)).map
        (fun x => x.id))).contains c.id)
      = db.geolocation.any (fun g => g.type == "client" && g.id == c.id) := by
    rw [Bool.eq_iff_iff]
    simp only [List.contains, List.elem_iff, List.mem_flatMap, List.mem_map,
      List.mem_filter, List.any_eq_true, beq_iff_eq, Bool.and_eq_true]
    constructor
    · rintro ⟨g, ⟨hg, hgt⟩, x, ⟨hx, hxid⟩, hxc⟩
      exact ⟨g, hg, hgt, by rw [← hxid, hxc]⟩
    · rintro ⟨g, hg, hgt, hgid⟩
      exact ⟨g, ⟨hg, hgt⟩, c, ⟨hc, hgid.symm⟩, rfl⟩
  rw [h]

/-- A save that reports `true` appended exactly the new client row. -/
lemma save_true_eq (err : Bool) (geo : List GeoRow) (i la lo : Int)
    (h : (save_geolocation err geo i la lo).2 = true) :
    (save_geolocation err geo i la lo).1 = geo ++ [⟨i, la, lo, "client"⟩] := by
  by_cases he : err = true
  · simp [save_geolocation, he] at h
  · by_cases hex : geo.any (fun g => g.id == i && g.type == "client") = true
    · simp [save_geolocation, he, hex] at h
    · simp [save_geolocation, he, hex]

/-- The writer `save_geolocation` never removes a row. -/
lemma save_subset (err : Bool) (geo : List GeoRow) (i la lo : Int) :
    ∀ g ∈ geo, g ∈ (save_geolocation err geo i la lo).1 := by
  intro g hg
  unfold save_geolocation
  split
  · exact hg
  · split
    · exact hg
    · exact List.mem_append_left _ hg

/-- One loop iteration never removes a geolocation row. -/
lemma processClient_geo_mono (api : String → ApiResponse) (errs : Int → Bool)
    (geo : List GeoRow) (c : ClientRow) :
    ∀ g ∈ geo, g ∈ (processClient api errs geo c).1 := by
  intro g hg
  unfold processClient
  cases hres : get_geolocation api (build_address_string c) with
  | success la lo fa pi =>
    simp only [hres]
    split <;> exact save_subset _ _ _ _ _ g hg
  | failure e m => simp only [hres]; exact hg

/-- The loop never removes a geolocation row. -/
lemma processLoop_geo_mono (api : String → ApiResponse) (errs : Int → Bool)
    (cs : List ClientRow) :
    ∀ (geo : List GeoRow), ∀ g ∈ geo, g ∈ (processLoop api errs geo cs).1 := by
  induction cs with
  | nil => intro geo g hg; exact hg
  | cons c cs ih =>
    intro geo g hg
    unfold processLoop
    exact ih _ g (processClient_geo_mono api errs geo c g hg)

/-- Each iteration records the id of the client it processed. -/
lemma processClient_outcome_id (api : String → ApiResponse)
    (errs : Int → Bool) (geo : List GeoRow) (c : ClientRow) :
    ((processClient api errs geo c).2).client_id = c.id := by
  unfold processClient
  cases hres : get_geolocation api (build_address_string c) with
  | success la lo fa pi =>
    simp only [hres]
    split <;> rfl
  | failure e m => simp only [hres]; rfl

/-- Each iteration records one of the three statuses. -/
lemma processClient_status_cases (api : String → ApiResponse)
    (errs : Int → Bool) (geo : List GeoRow) (c : ClientRow) :
    ((processClient api errs geo c).2).status = "success" ∨
    ((processClient api errs geo c).2).status = "skipped" ∨
    ((processClient api errs geo c).2).status = "failed" := by
  unfold processClient
  cases hres : get_geolocation api (build_address_string c) with
  | success la lo fa pi =>
    simp only [hres]
    split
    · left; rfl
    · right; left; rfl
  | failure e m => simp only [hres]; right; right; rfl

/-- A `success` outcome left a geolocation row typed `client` with the
id of the processed client. -/
lemma processClient_success_row (api : String → ApiResponse)
    (errs : Int → Bool) (geo : List GeoRow) (c : ClientRow)
    (h : ((processClient api errs geo c).2).status = "success") :
    ∃ g ∈ (processClient api errs geo c).1,
      g.id = c.id ∧ g.type = "client" := by
  unfold processClient at h ⊢
  cases hres : get_geolocation api (build_address_string c) with
  | success la lo fa pi =>
    simp only [hres] at h ⊢
    by_cases hs : (save_geolocation (errs c.id) geo c.id la lo).2 = true
    · simp only [hs, if_true]
      refine ⟨⟨c.id, la, lo, "client"⟩, ?_, rfl, rfl⟩
      rw [save_true_eq (errs c.id) geo c.id la lo hs]
      exact List.mem_append_right _ (List.mem_singleton.mpr rfl)
    · simp only [Bool.not_eq_true] at hs
      simp only [hs, Bool.false_eq_true, if_false] at h
      simp [Outcome.status] at h
  | failure e m =>
    simp only [hres] at h
    simp [Outcome.status] at h

/-- The loop emits one outcome per candidate. -/
lemma processLoop_length (api : String → ApiResponse) (errs : Int → Bool)
    (cs : List ClientRow) :
    ∀ geo : List GeoRow, ((processLoop api errs geo cs).2).length = cs.length := by
  induction cs with
  | nil => intro geo; rfl
  | cons c cs ih =>
    intro geo
    unfold processLoop
    simp only [List.length_cons]
    rw [ih]

/-- The loop records candidate ids in input order. -/
lemma processLoop_ids (api : String → ApiResponse) (errs : Int → Bool)
    (cs : List ClientRow) :
    ∀ geo : List GeoRow,
      ((processLoop api errs geo cs).2).map Outcome.client_id
        = cs.map (fun c => c.id) := by
  induction cs with
  | nil => intro geo; rfl
  | cons c cs ih =>
    intro geo
    unfold processLoop
    simp only [List.map_cons]
    rw [ih, processClient_outcome_id]

/-- Every outcome the loop emits has one of the three statuses. -/
lemma processLoop_status_cases (api : String → ApiResponse)
    (errs : Int → Bool) (cs : List ClientRow) :
    ∀ geo : List GeoRow, ∀ o ∈ (processLoop api errs geo cs).2,
      o.status = "success" ∨ o.status = "skipped" ∨ o.status = "failed" := by
  induction cs with
  | nil => intro geo o ho; cases ho
  | cons c cs ih =>
    intro geo o ho
    unfold processLoop at ho
    rcases List.mem_cons.mp ho with rfl | hrest
    · exact processClient_status_cases api errs geo c
    · exact ih _ o hrest

/-- If every outcome of the loop reads `success`, then every processed
candidate has a geolocation row typed `client` in the final store. -/
lemma processLoop_success_rows (api : String → ApiResponse)
    (errs : Int → Bool) (cs : List ClientRow) :
    ∀ geo : List GeoRow,
      (∀ o ∈ (processLoop api errs geo cs).2, o.status = "success") →
      ∀ c ∈ cs, ∃ g ∈ (processLoop api errs geo cs).1,
        g.id = c.id ∧ g.type = "client" := by
  induction cs with
  | nil => intro geo _ c hc; cases hc
  | cons c0 cs ih =>
    intro geo hall c hc
    have hhead : ((processClient api errs geo c0).2).status = "success" := by
      apply hall
      unfold processLoop
      exact List.mem_cons_self _ _
    rcases List.mem_cons.mp hc with rfl | hcs
    · obtain ⟨g, hg, hgid, hgt⟩ := processClient_success_row api errs geo c hhead
      refine ⟨g, ?_, hgid, hgt⟩
      unfold processLoop
      exact processLoop_geo_mono api errs cs _ g hg
    · have hrest : ∀ o ∈ (processLoop api errs (processClient api errs geo c0).1 cs).2,
          o.status = "success" := by
        intro o ho
        apply hall
        unfold processLoop
        exact List.mem_cons_of_mem _ ho
      have := ih (processClient api errs geo c0).1 hrest c hcs
      unfold processLoop
      exact this

/-- Outcomes carrying only the three statuses tally up to the list length. -/
lemma countStatus_sum (os : List Outcome)
    (h : ∀ o ∈ os, o.status = "success" ∨ o.status = "skipped" ∨
      o.status = "failed") :
    countStatus os "success" + countStatus os "skipped" +
      countStatus os "failed" = os.length := by
  induction os with
  | nil => rfl
  | cons o os ih =>
    have ho := h o (List.mem_cons_self o os)
    have hrest := ih (fun x hx => h x (List.mem_cons_of_mem _ hx))
    unfold countStatus at hrest ⊢
    rcases ho with h1 | h1 | h1 <;>
      simp [List.filter_cons, h1] <;> omega

/-- Inverting a run that returned an outcome list: the configuration
check passed, the connection succeeded, and the result is the loop run
over the limited candidate list. -/
lemma process_clients_some_inv {cfg : Config} {connOk : Bool}
    {api : String → ApiResponse} {errs : Int → Bool} {limit : Option Int}
    {db db₁ : DB} {os : List Outcome}
    (h : process_clients cfg connOk api errs limit db = (db₁, Option.some os)) :
    (cfg.pg_host_set && cfg.google_api_key_set) = true ∧ connOk = true ∧
    db₁ = { db with geolocation := (processLoop api errs db.geolocation
        (applyLimit limit (get_clients_without_geolocation db))).1 } ∧
    os = (processLoop api errs db.geolocation
        (applyLimit limit (get_clients_without_geolocation db))).2 := by
  simp only [process_clients] at h
  split at h
  · exact absurd (congrArg Prod.snd h) (by simp)
  next hcfg =>
    split at h
    · exact absurd (congrArg Prod.snd h) (by simp)
    next hconn =>
      split at h
      · exact absurd (congrArg Prod.snd h) (by simp)
      · injection h with h1 h2
        injection h2 with h2
        refine ⟨by simpa using hcfg, by simpa using hconn, h1.symm, h2.symm⟩

/-- If the old store is contained in the new one, the client relation is
unchanged, and every old candidate now has a `client`-typed row, then the
new store has no candidates left. -/
lemma candidates_empty_after (db db₁ : DB)
    (hc : db₁.clients = db.clients)
    (hmono : ∀ g ∈ db.geolocation, g ∈ db₁.geolocation)
    (hrows : ∀ c ∈ get_clients_without_geolocation db,
      ∃ g ∈ db₁.geolocation, g.id = c.id ∧ g.type = "client") :
    get_clients_without_geolocation db₁ = [] := by
  rw [candidates_eq]
  unfold clientsWithoutGeolocationSpec
  rw [List.filter_eq_nil_iff]
  intro c hcmem
  rw [hc] at hcmem
  intro hpred
  obtain ⟨hname, hnorow⟩ := Bool.and_eq_true_iff.mp hpred
  have hany : db₁.geolocation.any
      (fun g => g.type == "client" && g.id == c.id) = false := by
    simpa using hnorow
  cases hprev : db.geolocation.any
      (fun g => g.type == "client" && g.id == c.id) with
  | true =>
    obtain ⟨g, hg, hgp⟩ := List.any_eq_true.mp hprev
    have h1 : db₁.geolocation.any
        (fun g => g.type == "client" && g.id == c.id) = true :=
      List.any_eq_true.mpr ⟨g, hmono g hg, hgp⟩
    rw [hany] at h1
    cases h1
  | false =>
    have hcand : c ∈ get_clients_without_geolocation db := by
      rw [candidates_eq]
      unfold clientsWithoutGeolocationSpec
      rw [List.mem_filter]
      refine ⟨hcmem, ?_⟩
      rw [hprev]
      simpa using hname
    obtain ⟨g, hg, hgid, hgt⟩ := hrows c hcand
    have h1 : db₁.geolocation.any
        (fun g => g.type == "client" && g.id == c.id) = true :=
      List.any_eq_true.mpr ⟨g, hg, by simp [hgt, hgid]⟩
    rw [hany] at h1
    cases h1

/-- The spec wording of the Address Builder parts: the non-empty
(Python-truthy) fields among {address, city, state, pincode-as-string},
in that order. -/
def nonEmptyAddressFields (c : ClientRow) : List String :=
  ([c.address, c.city, c.state, c.pincode].filter truthy).map pyStr

/-- C9: `build_address_string` returns the non-empty fields among
{address, city, state, pincode-as-string}, in that order, joined by
`", "` with `India` appended as the final component; with all fields
present the output is exactly `address, city, state, pincode, India`,
with only city present it is `city, India`, and with no fields present
it is `India`. -/
theorem C9_address_builder :
    (∀ c : ClientRow, build_address_string c
        = String.intercalate ", " (nonEmptyAddressFields c ++ ["India"])) ∧
    (∀ (i : Int) (a ci st pc : String), a ≠ "" → ci ≠ "" → st ≠ "" → pc ≠ "" →
      build_address_string ⟨i, .str "N", .str a, .str pc, .str st, .str ci⟩
        = a ++ ", " ++ ci ++ ", " ++ st ++ ", " ++ pc ++ ", India") ∧
    (∀ (i : Int) (ci : String), ci ≠ "" →
      build_address_string ⟨i, .str "N", .none, .none, .none, .str ci⟩
        = ci ++ ", India") ∧
    (∀ i : Int,
      build_address_string ⟨i, .str "N", .none, .none, .none, .none⟩
        = "India") := by
  refine ⟨?_, ?_, ?_, ?_⟩
  · intro c
    unfold build_address_string nonEmptyAddressFields
    simp only [List.filter_cons, List.filter_nil]
    cases truthy c.address <;> cases truthy c.city <;>
      cases truthy c.state <;> cases truthy c.pincode <;> simp
  · intro i a ci st pc ha hci hst hpc
    have hIn : (", " : String) ++ "India" = ", India" := rfl
    simp [build_address_string, truthy, pyStr, ha, hci, hst, hpc,
      String.intercalate, String.intercalate.go]
    rw [String.append_assoc, hIn]
  · intro i ci hci
    have hIn : (", " : String) ++ "India" = ", India" := rfl
    simp [build_address_string, truthy, pyStr, hci,
      String.intercalate, String.intercalate.go]
    rw [String.append_assoc, hIn]
  · intro i
    simp [build_address_string, truthy, pyStr,
      String.intercalate, String.intercalate.go]

/-- Witness for C9 at a concrete record. -/
theorem C9_address_builder_witness :
    build_address_string ⟨7, .str "N", .str "12 Rd", .str "400001",
        .str "MH", .str "Mumbai"⟩
      = "12 Rd, Mumbai, MH, 400001, India" ∧
    build_address_string ⟨7, .str "N", .none, .none, .none, .str "Mumbai"⟩
      = "Mumbai, India" ∧
    build_address_string ⟨7, .str "N", .none, .none, .none, .none⟩
      = "India" := by
  refine ⟨?_, ?_, ?_⟩
  · exact C9_address_builder.2.1 7 "12 Rd" "Mumbai" "MH" "400001"
      (by decide) (by decide) (by decide) (by decide)
  · exact C9_address_builder.2.2.1 7 "Mumbai" (by decide)
  · exact C9_address_builder.2.2.2 7

/-- C10: a present-but-falsy field value (the integer 0 or the empty
string) contributes nothing to the address: replacing it by null leaves
`build_address_string` unchanged, for each of the four fields. -/
theorem C10_falsy_fields_omitted (v : PyVal) (h : truthy v = false) :
    ∀ c : ClientRow,
      (build_address_string { c with pincode := v }
        = build_address_string { c with pincode := .none }) ∧
      (build_address_string { c with address := v }
        = build_address_string { c with address := .none }) ∧
      (build_address_string { c with city := v }
        = build_address_string { c with city := .none }) ∧
      (build_address_string { c with state := v }
        = build_address_string { c with state := .none }) := by
  intro c
  refine ⟨?_, ?_, ?_, ?_⟩ <;>
    simp [build_address_string, h, show truthy PyVal.none = false from rfl]

/-- Witness for C10: the integer 0 and the empty string as pincode are
dropped exactly like a null pincode. -/
theorem C10_falsy_fields_omitted_witness :
    build_address_string ⟨7, .str "N", .str "12 Rd", .int 0,
        .str "MH", .str "Mumbai"⟩
      = build_address_string ⟨7, .str "N", .str "12 Rd", .none,
        .str "MH", .str "Mumbai"⟩ ∧
    build_address_string ⟨7, .str "N", .str "", .int 0, .str "", .str ""⟩
      = "India" := by
  constructor
  · exact (C10_falsy_fields_omitted (.int 0) (by decide)
      ⟨7, .str "N", .str "12 Rd", .int 0, .str "MH", .str "Mumbai"⟩).1
  · decide

/-- With a body whose status is `OK` and a nonempty result list, the
geocoding client returns the first result. -/
lemma get_geolocation_ok_cons (b : GeoBody) (r : GeoApiResult)
    (rs : List GeoApiResult) (address : String)
    (hst : b.status = Option.some "OK") (hres : b.results = r :: rs) :
    get_geolocation (fun _ => ApiResponse.body b) address
      = GeoResult.success r.lat r.lng r.formatted_address
          (r.place_id.getD "") := by
  simp [get_geolocation, hst, hres]

/-- With a non-`OK` status or an empty result list, the geocoding client
returns the failure dict built from the status and the error message. -/
lemma get_geolocation_fail (b : GeoBody) (st : String) (address : String)
    (hst : b.status = Option.some st) (h : st ≠ "OK" ∨ b.results = []) :
    get_geolocation (fun _ => ApiResponse.body b) address
      = GeoResult.failure st (b.error_message.getD "No results found") := by
  rcases h with h | h
  · simp [get_geolocation, hst, h]
  · by_cases hok : st = "OK"
    · simp [get_geolocation, hst, hok, h]
    · simp [get_geolocation, hst, hok]

/-- C5: for a provider body carrying a status string, `get_geolocation`
returns `success` (with the lat/lng/address/place id of the first result,
place id defaulting to the empty string) exactly when the status is `OK`
and the result list is nonempty; otherwise it returns `failure` with the
status string as error code and the provider error message (default
`No results found`); in particular status `ZERO_RESULTS` yields a failure
with error code `ZERO_RESULTS`. -/
theorem C5_geocoding_classification (b : GeoBody) (st address : String)
    (hst : b.status = Option.some st) :
    ((∃ la lo fa pi, get_geolocation (fun _ => ApiResponse.body b) address
        = GeoResult.success la lo fa pi) ↔ (st = "OK" ∧ b.results ≠ [])) ∧
    (∀ r rs, st = "OK" → b.results = r :: rs →
      get_geolocation (fun _ => ApiResponse.body b) address
        = GeoResult.success r.lat r.lng r.formatted_address
            (r.place_id.getD "")) ∧
    ((st ≠ "OK" ∨ b.results = []) →
      get_geolocation (fun _ => ApiResponse.body b) address
        = GeoResult.failure st (b.error_message.getD "No results found")) ∧
    (st = "ZERO_RESULTS" →
      get_geolocation (fun _ => ApiResponse.body b) address
        = GeoResult.failure "ZERO_RESULTS"
            (b.error_message.getD "No results found")) := by
  refine ⟨?_, ?_, ?_, ?_⟩
  · constructor
    · rintro ⟨la, lo, fa, pi, h⟩
      by_cases hok : st = "OK"
      · refine ⟨hok, ?_⟩
        intro hnil
        rw [get_geolocation_fail b st address hst (Or.inr hnil)] at h
        cases h
      · rw [get_geolocation_fail b st address hst (Or.inl hok)] at h
        cases h
    · rintro ⟨hok, hne⟩
      obtain ⟨r, rs, hres⟩ := List.exists_cons_of_ne_nil hne
      subst hok
      exact ⟨r.lat, r.lng, r.formatted_address, r.place_id.getD "",
        get_geolocation_ok_cons b r rs address hst hres⟩
  · intro r rs hok hres
    subst hok
    exact get_geolocation_ok_cons b r rs address hst hres
  · exact get_geolocation_fail b st address hst
  · intro hzr
    subst hzr
    exact get_geolocation_fail b "ZERO_RESULTS" address hst
      (Or.inl (by decide))

/-- Witness for C5: a one-result `OK` body succeeds with its first result
and a `ZERO_RESULTS` body fails with that error code. -/
theorem C5_geocoding_classification_witness :
    get_geolocation (fun _ => okBody 10 20 "F") "addr"
      = GeoResult.success 10 20 "F" "" ∧
    get_geolocation (fun _ => zeroResultsBody) "addr"
      = GeoResult.failure "ZERO_RESULTS" "No results found" := by
  constructor
  · exact (C5_geocoding_classification
      ⟨Option.some "OK", [⟨10, 20, "F", Option.none⟩], Option.none⟩
      "OK" "addr" rfl).2.1 ⟨10, 20, "F", Option.none⟩ [] rfl rfl
  · exact (C5_geocoding_classification
      ⟨Option.some "ZERO_RESULTS", [], Option.none⟩
      "ZERO_RESULTS" "addr" rfl).2.2.2 rfl

/-- The store invariant: at most one geolocation row per
(id, type = `client`) pair. -/
def GeoInv (geo : List GeoRow) : Prop :=
  geo.Pairwise (fun a b => a.type = "client" → b.type = "client" →
    a.id ≠ b.id)

/-- Any call to `save_geolocation` preserves the invariant. -/
lemma save_preserves_inv (err : Bool) (geo : List GeoRow) (i la lo : Int)
    (hinv : GeoInv geo) : GeoInv (save_geolocation err geo i la lo).1 := by
  unfold save_geolocation
  split
  · exact hinv
  · split
    · exact hinv
    next hex =>
      unfold GeoInv
      rw [List.pairwise_append]
      refine ⟨hinv, List.pairwise_singleton _ _, ?_⟩
      intro a ha b hb
      rw [List.mem_singleton] at hb
      subst hb
      intro hat _ heq
      apply hex
      exact List.any_eq_true.mpr ⟨a, ha, by simp [hat, heq]⟩

/-- C6: the writer preserves the at-most-one-row invariant, and calling
it twice in sequence for a fresh client id inserts and returns the saved
signal on the first call, keeps the invariant, and on the second call
detects the existing row and returns the skipped signal with the store
unchanged. -/
theorem C6_writer_invariant :
    (∀ (err : Bool) (geo : List GeoRow) (i la lo : Int), GeoInv geo →
      GeoInv (save_geolocation err geo i la lo).1) ∧
    (∀ (geo : List GeoRow) (i la lo la2 lo2 : Int), GeoInv geo →
      (¬∃ g ∈ geo, g.id = i ∧ g.type = "client") →
      (save_geolocation false geo i la lo).2 = true ∧
      GeoInv (save_geolocation false geo i la lo).1 ∧
      save_geolocation false (save_geolocation false geo i la lo).1 i la2 lo2
        = ((save_geolocation false geo i la lo).1, false)) := by
  constructor
  · exact save_preserves_inv
  · intro geo i la lo la2 lo2 hinv hno
    have hany : geo.any (fun g => g.id == i && g.type == "client")
        = false := by
      rw [Bool.eq_false_iff]
      intro htrue
      obtain ⟨g, hg, hp⟩ := List.any_eq_true.mp htrue
      obtain ⟨h1, h2⟩ := Bool.and_eq_true_iff.mp hp
      refine hno ⟨g, hg, ?_, ?_⟩
      · simpa using h1
      · simpa using h2
    have hfirst : (save_geolocation false geo i la lo).1
        = geo ++ [⟨i, la, lo, "client"⟩] := by
      simp [save_geolocation, hany]
    refine ⟨by simp [save_geolocation, hany], save_preserves_inv _ _ _ _ _ hinv, ?_⟩
    rw [hfirst]
    have hexists : List.any (geo ++ [⟨i, la, lo, "client"⟩])
        (fun g => g.id == i && g.type == "client") = true := by
      apply List.any_eq_true.mpr
      refine ⟨⟨i, la, lo, "client"⟩,
        List.mem_append_right _ (List.mem_singleton.mpr rfl), ?_⟩
      simp
    simp [save_geolocation, hexists]

/-- Witness for C6 at the empty store and client id 1. -/
theorem C6_writer_invariant_witness :
    (save_geolocation false [] 1 5 6).2 = true ∧
    GeoInv (save_geolocation false [] 1 5 6).1 ∧
    save_geolocation false (save_geolocation false [] 1 5 6).1 1 7 8
      = ((save_geolocation false [] 1 5 6).1, false) :=
  C6_writer_invariant.2 [] 1 5 6 7 8 List.Pairwise.nil (by simp)

/-- C7: the Candidate Source returns exactly the clients with a non-null
name whose id does not occur among the geolocation rows typed `client`;
in particular no client already present in geolocation with type `client`
ever appears in the result. -/
theorem C7_candidate_source :
    (∀ db : DB, get_clients_without_geolocation db
      = clientsWithoutGeolocationSpec db) ∧
    (∀ (db : DB) (c : ClientRow), c ∈ get_clients_without_geolocation db →
      ¬∃ g ∈ db.geolocation, g.type = "client" ∧ g.id = c.id) := by
  constructor
  · exact candidates_eq
  · intro db c hc
    rw [candidates_eq] at hc
    unfold clientsWithoutGeolocationSpec at hc
    rw [List.mem_filter] at hc
    obtain ⟨-, hpred⟩ := hc
    rintro ⟨g, hg, hgt, hgid⟩
    obtain ⟨-, hno⟩ := Bool.and_eq_true_iff.mp hpred
    have h1 : db.geolocation.any
        (fun g => g.type == "client" && g.id == c.id) = true :=
      List.any_eq_true.mpr ⟨g, hg, by simp [hgt, hgid]⟩
    simp [h1] at hno

/-- Witness for C7: with a geolocation row only for id 2, client id 1 is
a candidate and indeed has no `client`-typed row. -/
theorem C7_candidate_source_witness :
    ¬∃ g ∈ (DB.mk [clientA] [⟨2, 1, 1, "client"⟩]).geolocation,
      g.type = "client" ∧ g.id = clientA.id :=
  C7_candidate_source.2 ⟨[clientA], [⟨2, 1, 1, "client"⟩]⟩ clientA (by decide)

/-- C8: the loop always emits one outcome per candidate in input order and
the three status counters sum to the number of candidates; on the
three-candidate run where A geocodes and is new, B geocodes but already
has a `client` row, and C geocodes to `ZERO_RESULTS`, the outcomes are
[success A, skipped B, failed C] and the counters read 1, 1, 1. -/
theorem C8_end_to_end :
    (∀ (api : String → ApiResponse) (errs : Int → Bool)
        (geo : List GeoRow) (cs : List ClientRow),
      ((processLoop api errs geo cs).2).length = cs.length ∧
      ((processLoop api errs geo cs).2).map Outcome.client_id
        = cs.map (fun c => c.id) ∧
      countStatus (processLoop api errs geo cs).2 "success" +
        countStatus (processLoop api errs geo cs).2 "skipped" +
        countStatus (processLoop api errs geo cs).2 "failed"
        = cs.length) ∧
    (processLoop apiABC noErrs [⟨2, 30, 40, "client"⟩]
        [clientA, clientB, clientC]).2
      = [.success 1 (.str "A") 10 20 "A Formatted",
         .skipped 2 (.str "B") "Already exists in database",
         .failed 3 (.str "C") "ZERO_RESULTS" "No results found"] ∧
    countStatus (processLoop apiABC noErrs [⟨2, 30, 40, "client"⟩]
        [clientA, clientB, clientC]).2 "success" = 1 ∧
    countStatus (processLoop apiABC noErrs [⟨2, 30, 40, "client"⟩]
        [clientA, clientB, clientC]).2 "skipped" = 1 ∧
    countStatus (processLoop apiABC noErrs [⟨2, 30, 40, "client"⟩]
        [clientA, clientB, clientC]).2 "failed" = 1 := by
  refine ⟨?_, by decide, by decide, by decide, by decide⟩
  intro api errs geo cs
  refine ⟨processLoop_length api errs cs geo,
    processLoop_ids api errs cs geo, ?_⟩
  rw [← processLoop_length api errs cs geo]
  exact countStatus_sum _ (processLoop_status_cases api errs cs geo)

/-- C1 fails on the code: with a database error injected during save, the
writer returns the same `false` signal the already-exists case returns,
and the orchestrator records the outcome as `skipped` — not as a failed
save. -/
theorem C1_counterexample :
    (save_geolocation true [] 1 5 6).2
      = (save_geolocation false [⟨1, 5, 6, "client"⟩] 1 5 6).2 ∧
    ((processClient apiABC (fun _ => true) [] clientA).2).status
      = "skipped" ∧
    ((processClient apiABC (fun _ => true) [] clientA).2).status
      ≠ "failed" ∧
    process_clients cfgOK true apiABC (fun _ => true) Option.none
        ⟨[clientA], []⟩
      = (⟨[clientA], []⟩,
         Option.some [.skipped 1 (.str "A") "Already exists in database"]) := by
  refine ⟨by decide, by decide, by decide, by decide⟩

/-- C1 amended: on a database error `save_geolocation` rolls the pending
transaction back (store unchanged) and returns `false` — the same boolean
signal as the already-exists case — and the orchestrator therefore
records a persistence error as a `skipped` outcome with reason
`Already exists in database`, not as a failed save. -/
theorem C1_db_error_recorded_as_skip :
    (∀ (geo : List GeoRow) (i la lo : Int),
      save_geolocation true geo i la lo = (geo, false)) ∧
    (∀ (geo : List GeoRow) (i la lo la2 lo2 : Int),
      (save_geolocation true geo i la lo).2
        = (save_geolocation false (geo ++ [⟨i, la2, lo2, "client"⟩])
            i la lo).2) ∧
    (∀ (c : ClientRow) (geo : List GeoRow) (la lo : Int) (fa : String),
      processClient (fun _ => okBody la lo fa) (fun _ => true) geo c
        = (geo, .skipped c.id c.client_name "Already exists in database")) := by
  refine ⟨?_, ?_, ?_⟩
  · intro geo i la lo
    simp [save_geolocation]
  · intro geo i la lo la2 lo2
    simp [save_geolocation, List.any_append]
  · intro c geo la lo fa
    simp [processClient, get_geolocation, okBody, save_geolocation,
      Outcome.skipped]

/-- The store after a first run has geocoded client A. -/
def dbAfterA : DB := ⟨[clientA], [⟨1, 10, 20, "client"⟩]⟩

/-- C2 fails on the code: after a first run in which the only client
succeeded, the second run returns no outcome sequence at all — the
previously-succeeded client is excluded from the candidate list and gets
no `skipped` outcome. -/
theorem C2_counterexample :
    process_clients cfgOK true apiABC noErrs Option.none ⟨[clientA], []⟩
      = (dbAfterA, Option.some [.success 1 (.str "A") 10 20 "A Formatted"]) ∧
    process_clients cfgOK true apiABC noErrs Option.none dbAfterA
      = (dbAfterA, Option.none) := by
  refine ⟨by decide, by decide⟩

/-- C2 amended: if a full (unlimited) run returns an outcome list whose
every entry is a success, the second run over the resulting store finds
no candidates at all: every previously-succeeded client is excluded by
the Candidate Source, nothing is re-inserted and nothing is reported
failed or skipped — the run returns the store unchanged and no outcome
sequence. -/
theorem C2_second_run_no_candidates (cfg : Config) (connOk : Bool)
    (api : String → ApiResponse) (errs : Int → Bool) (db db₁ : DB)
    (os : List Outcome)
    (h1 : process_clients cfg connOk api errs Option.none db
      = (db₁, Option.some os))
    (h2 : ∀ o ∈ os, o.status = "success") :
    get_clients_without_geolocation db₁ = [] ∧
    process_clients cfg connOk api errs Option.none db₁
      = (db₁, Option.none) := by
  obtain ⟨hcfg, hconn, hdb, hos⟩ := process_clients_some_inv h1
  have hlim : applyLimit Option.none (get_clients_without_geolocation db)
      = get_clients_without_geolocation db := rfl
  rw [hlim] at hdb hos
  have hempty : get_clients_without_geolocation db₁ = [] := by
    apply candidates_empty_after db db₁
    · rw [hdb]
    · intro g hg
      rw [hdb]
      exact processLoop_geo_mono api errs _ db.geolocation g hg
    · intro c hc
      rw [hdb]
      apply processLoop_success_rows api errs _ db.geolocation ?_ c hc
      intro o ho
      apply h2
      rw [hos]
      exact ho
  refine ⟨hempty, ?_⟩
  simp [process_clients, hcfg, hconn, hempty, applyLimit]

/-- Witness for C2 at the one-client store. -/
theorem C2_second_run_no_candidates_witness :
    get_clients_without_geolocation dbAfterA = [] ∧
    process_clients cfgOK true apiABC noErrs Option.none dbAfterA
      = (dbAfterA, Option.none) :=
  C2_second_run_no_candidates cfgOK true apiABC noErrs ⟨[clientA], []⟩
    dbAfterA [.success 1 (.str "A") 10 20 "A Formatted"]
    (by decide) (by decide)

/-- C3 fails on the code: with no candidates the orchestrator returns
`Option.none` — the Python `None`, no outcome sequence — rather than an
empty outcome sequence. -/
theorem C3_counterexample :
    process_clients cfgOK true apiABC noErrs Option.none ⟨[], []⟩
      = (⟨[], []⟩, Option.none) ∧
    (process_clients cfgOK true apiABC noErrs Option.none ⟨[], []⟩).2
      ≠ Option.some ([] : List Outcome) := by
  refine ⟨by decide, by decide⟩

/-- C3 amended: whenever the fetched and limit-truncated candidate list
is empty, the run exits cleanly with the store unchanged and no outcome
sequence (`Option.none` rather than an empty sequence), having performed
no geocoding call and no insert: the result does not depend on the
geocoding oracle or on the error oracle. -/
theorem C3_empty_candidates (cfg : Config) (connOk : Bool)
    (api : String → ApiResponse) (errs : Int → Bool) (limit : Option Int)
    (db : DB)
    (h : applyLimit limit (get_clients_without_geolocation db) = []) :
    process_clients cfg connOk api errs limit db = (db, Option.none) ∧
    ∀ (api2 : String → ApiResponse) (errs2 : Int → Bool),
      process_clients cfg connOk api2 errs2 limit db
        = process_clients cfg connOk api errs limit db := by
  have hmain : ∀ (a : String → ApiResponse) (e : Int → Bool),
      process_clients cfg connOk a e limit db = (db, Option.none) := by
    intro a e
    simp only [process_clients]
    split
    · rfl
    · split
      · rfl
      · simp [h]
  exact ⟨hmain api errs, fun api2 errs2 => by rw [hmain, hmain]⟩

/-- Witness for C3 at the empty store. -/
theorem C3_empty_candidates_witness :
    process_clients cfgOK true apiABC noErrs Option.none ⟨[], []⟩
      = (⟨[], []⟩, Option.none) :=
  (C3_empty_candidates cfgOK true apiABC noErrs Option.none ⟨[], []⟩
    (by decide)).1

/-- C4 fails on the code: a caller-supplied maximum of 0 is falsy, so the
limit is ignored and the run processes every candidate instead of zero
candidates. -/
theorem C4_counterexample :
    applyLimit (Option.some 0) [clientA] = [clientA] ∧
    (process_clients cfgOK true apiABC noErrs (Option.some 0)
        ⟨[clientA], []⟩).2
      = Option.some [.success 1 (.str "A") 10 20 "A Formatted"] := by
  refine ⟨by decide, by decide⟩

/-- C4 amended: for a positive caller-supplied maximum n the orchestrator
selects exactly the prefix of the fetched list of length min(n, |L|) in
fetch order and the loop emits one outcome per selected candidate in that
order; a maximum of 0 (like None) is falsy and disables truncation, so
all of L is selected. -/
theorem C4_limit_semantics (n : Int) (h : 0 < n) :
    (∀ l : List ClientRow,
      applyLimit (Option.some n) l = l.take n.toNat ∧
      (l.take n.toNat).length = min n.toNat l.length) ∧
    (∀ l : List ClientRow,
      applyLimit (Option.some 0) l = l ∧ applyLimit Option.none l = l) ∧
    (∀ (api : String → ApiResponse) (errs : Int → Bool)
        (geo : List GeoRow) (l : List ClientRow),
      ((processLoop api errs geo (l.take n.toNat)).2).map Outcome.client_id
        = (l.take n.toNat).map (fun c => c.id)) := by
  have hne : ¬ n = 0 := by omega
  refine ⟨?_, ?_, ?_⟩
  · intro l
    exact ⟨by simp [applyLimit, hne, h], by rw [List.length_take]⟩
  · intro l
    exact ⟨by simp [applyLimit], rfl⟩
  · intro api errs geo l
    exact processLoop_ids api errs _ geo

/-- Witness for C4 at n = 2 over three candidates. -/
theorem C4_limit_semantics_witness :
    applyLimit (Option.some 2) [clientA, clientB, clientC]
      = [clientA, clientB, clientC].take (2 : Int).toNat ∧
    applyLimit (Option.some 0) [clientA, clientB, clientC]
      = [clientA, clientB, clientC] := by
  have h := C4_limit_semantics 2 (by decide)
  exact ⟨(h.1 [clientA, clientB, clientC]).1,
    (h.2.1 [clientA, clientB, clientC]).1⟩
